import Mathlib

/-!
Verification development for the Wash-Connect bulk scraper core
(`bulk_scraper.py`): the batch planner (`calculate_batch_parameters`),
the resolution phase (`scrape_location_batch`), the polling phase
(`scrape_machine_status_batch` and the cycle loop of `run_bulk_scraper`),
and the failure-code cache (`load_failed_codes` / `save_failed_codes`).

Numeric modelling: Python ints are `ℤ` (lengths are `ℕ`); Python float
division, `round` and `math.ceil` are modelled exactly over `ℚ`
(Python's `round` is round-half-to-even).  I/O is modelled by
environments of functions: the per-code HTTP outcome, the existence of
an on-disk artifact, and the success of a JSON save.
-/

/-- Python's builtin `round` on an exact rational: round half to even. -/
def pyRound (q : ℚ) : ℤ :=
  let f := ⌊q⌋
  let r := q - (f : ℚ)
  if r < 1/2 then f
  else if 1/2 < r then f + 1
  else if f % 2 = 0 then f else f + 1

/-- Model of bulk_scraper.py line 452:
`num_batches = math.ceil(total_requests / batch_size)`. -/
def num_batches (total_requests : ℕ) (batch_size : ℤ) : ℤ :=
  ⌈(total_requests : ℚ) / (batch_size : ℚ)⌉

/-- Embedding of `calculate_batch_parameters` (bulk_scraper.py lines 432-457).
Both call sites pass `min_batch_size = 5` (the Python default) and
`max_batch_size = max_concurrent`.  Returns `(batch_size, batch_interval)`. -/
def calculate_batch_parameters (total_requests : ℕ)
    (interval_seconds min_batch_size max_batch_size : ℤ) : ℤ × ℚ :=
  if total_requests = 0 then (0, 0)
  else
    let requests_per_second : ℚ := (total_requests : ℚ) / (interval_seconds : ℚ)
    let ideal_batch_size : ℤ := max 1 (pyRound requests_per_second)
    let batch_size : ℤ := max min_batch_size (min ideal_batch_size max_batch_size)
    let nb : ℤ := num_batches total_requests batch_size
    let batch_interval : ℚ := if 1 < nb then (interval_seconds : ℚ) / (nb : ℚ) else 0
    (batch_size, batch_interval)

/-- Clamp `x` into the interval `[lo, hi]`, as the spec's reference
definition uses it. -/
def clamp (x lo hi : ℤ) : ℤ := max lo (min x hi)

/-- Reference definition of `BatchPlanner.plan`, written from the spec's
words (spec §4.1): zero plan on `totalItems = 0`; otherwise
`batchSize = clamp(max(1, round(totalItems / intervalSeconds)), minBatch, maxBatch)`,
`numBatches = ceil(totalItems / batchSize)` and
`delay = intervalSeconds / numBatches` when `numBatches > 1`, else `0`.
`round` is Python's round (half to even), the only reading under which the
spec sentence describes the source expression it was written from. -/
def plan_spec (totalItems : ℕ) (intervalSeconds minBatch maxBatch : ℤ) : ℤ × ℚ :=
  if totalItems = 0 then (0, 0)
  else
    let batchSize : ℤ :=
      clamp (max 1 (pyRound ((totalItems : ℚ) / (intervalSeconds : ℚ)))) minBatch maxBatch
    let numBatches : ℤ := ⌈(totalItems : ℚ) / (batchSize : ℚ)⌉
    let delay : ℚ := if 1 < numBatches then (intervalSeconds : ℚ) / (numBatches : ℚ) else 0
    (batchSize, delay)

/-!
## Resolution phase (`scrape_location_batch`, lines 302-359)

A request outcome carries what `make_request` (lines 184-206) hands back to
the batch loop after `asyncio.gather(*tasks, return_exceptions=True)`:
either a captured exception (`exc`), or the pair `(data, status_code)`,
where `data = none` models both a non-200 response and a JSON body whose
parse failed or was `null`, and the timeout path is `(none, 0)`. -/

inductive ReqResult (α : Type) where
  | exc : ReqResult α
  | ok (data : Option α) (status : Nat) : ReqResult α
deriving DecidableEq

/-- The part of a location payload the core reads (line 351):
`data["location"]["uln"].strip()`.  `uln = none` models a payload in which
the lookup raises `KeyError`; `some u` holds the stripped identifier. -/
structure LocPayload where
  uln : Option String
deriving DecidableEq

/-- Environment of the resolution batch: per-code request outcome
(the network collaborator), on-disk artifact existence
(`(data_dir / code / f"{code}.json").exists()`, line 318), and whether
`save_json` succeeds for the code (line 353). -/
structure LocEnv where
  outcome : String → ReqResult LocPayload
  artifact : String → Bool
  saveOk : String → Bool

/-- The codes for which the batch actually builds a request task
(lines 313-323): a code is skipped when it is in `failed_codes` or its
location artifact already exists. -/
def requestCodes (env : LocEnv) (codes : List String) (failed : Finset String) : List String :=
  codes.filter (fun c => decide (c ∉ failed) && !(env.artifact c))

/-- Per-code processing of one gathered result (lines 332-358), returning
the `(code, uln)` entry added to `location_to_uln`, if any: exceptions,
404s, missing data, a missing ULN, and a failed save all add nothing. -/
def locStep (env : LocEnv) (c : String) : Option (String × String) :=
  match env.outcome c with
  | .exc => none
  | .ok data status =>
    if status = 404 then none
    else
      match data with
      | none => none
      | some d =>
        match d.uln with
        | none => none
        | some u => if env.saveOk c then some (c, u) else none

/-- Whether the gathered result for `c` hits the 404 branch (line 342). -/
def loc404 (env : LocEnv) (c : String) : Bool :=
  match env.outcome c with
  | .exc => false
  | .ok _ s => decide (s = 404)

/-- Whether the gathered result for `c` is one of the claim's transient
failures: a captured exception, a timeout or non-2xx response other than
404 (`data = none`), or a 2xx payload missing the internal identifier. -/
def locTransient (env : LocEnv) (c : String) : Bool :=
  match env.outcome c with
  | .exc => true
  | .ok none s => decide (s ≠ 404)
  | .ok (some d) s => decide (s ≠ 404) && d.uln.isNone

/-- Embedding of `scrape_location_batch` (lines 302-359): returns
`(location_to_uln, failed_codes | new_failed_codes)`; with no tasks it
returns `({}, failed_codes)` unchanged (line 326). -/
def scrape_location_batch (env : LocEnv) (codes : List String) (failed : Finset String) :
    List (String × String) × Finset String :=
  let reqs := requestCodes env codes failed
  if reqs = [] then ([], failed)
  else
    (reqs.filterMap (locStep env),
      failed ∪ (reqs.filter (loc404 env)).toFinset)

/-- Replace the outcome of a single code `x` (e.g. by a raised exception),
leaving every sibling request's outcome and the rest of the environment
unchanged. -/
def overrideOutcome (env : LocEnv) (x : String) (r : ReqResult LocPayload) : LocEnv :=
  { env with outcome := fun c => if c = x then r else env.outcome c }

/-- Phase 1 of `run_bulk_scraper` (lines 515-543): fold
`scrape_location_batch` over the location batches, accumulating
`new_locations` and threading `failed_codes`; the resulting second
component is the set passed to `save_failed_codes` (line 543). -/
def phase1 (env : LocEnv) (batches : List (List String)) (failed0 : Finset String) :
    List (String × String) × Finset String :=
  batches.foldl
    (fun acc b =>
      let r := scrape_location_batch env b acc.2
      (acc.1 ++ r.1, r.2))
    ([], failed0)

/-- A concrete environment for the C5 witness: code "A" receives a 404. -/
def locEnvW : LocEnv :=
  { outcome := fun c => if c = "A" then ReqResult.ok none 404 else ReqResult.exc
    artifact := fun _ => false
    saveOk := fun _ => true }

/-- A concrete environment for the C6 witness: "B" has an artifact on disk. -/
def locEnvW6 : LocEnv :=
  { outcome := fun _ => ReqResult.exc
    artifact := fun c => c = "B"
    saveOk := fun _ => false }

/-- A concrete environment for the C7 witness: everything resolves. -/
def locEnvW7 : LocEnv :=
  { outcome := fun _ => ReqResult.ok (some { uln := some "U" }) 200
    artifact := fun _ => false
    saveOk := fun _ => true }

/-!
## Batching and the polling phase (`run_bulk_scraper`, lines 586-643)
-/

/-- Python's `math.ceil(a / b)` for natural `a` and positive natural `b`. -/
def ceilDiv (a b : ℕ) : ℕ := (a + b - 1) / b

/-- Fuel-indexed worker for `batchesOf`; the fuel (initially the list
length) only forces termination and never runs out when `1 ≤ size`. -/
def batchesOfAux {α : Type} (size : ℕ) : ℕ → List α → List (List α)
  | 0, _ => []
  | _ + 1, [] => []
  | fuel + 1, a :: l => (a :: l).take size :: batchesOfAux size fuel ((a :: l).drop size)

/-- The batch slices `items[i : i + size]` produced by the loops
`for i in range(0, len(items), size)` (lines 517-518 and 600-601). -/
def batchesOf {α : Type} (size : ℕ) (l : List α) : List (List α) :=
  batchesOfAux size l.length l

/-- Environment of the polling batch: per-code request outcome of
`get_machine_status` (the payload is kept opaque, saved verbatim) and
whether `save_json` succeeds for the code (line 403). -/
structure StatusEnv where
  outcome : String → ReqResult String
  saveOk : String → Bool

/-- One saved status artifact: the file
`data_dir / code / f"{uln}-{request_time}.json"` (line 402) with its
payload; `time` is the `request_time` stamped into the file name,
abstracted to a reading of the wall clock. -/
structure Artifact where
  code : String
  uln : String
  time : ℕ
  data : String
deriving DecidableEq

/-- What one call of `scrape_machine_status_batch` produces: the saved
artifacts, `codes_to_parse` (handed to `parse_and_cleanup_location_data`,
lines 409-410), and `success_count`. -/
structure BatchResult where
  artifacts : List Artifact
  parsed : List String
  success : ℕ
deriving DecidableEq

/-- Per-item processing of one gathered status result (lines 388-406):
a captured exception or `data is None` (timeout, non-200, bad JSON) saves
nothing; otherwise the artifact is saved when `save_json` succeeds,
stamped with the batch's single `request_time` value `now`. -/
def statusStep (env : StatusEnv) (now : ℕ) (x : String × String) : Option Artifact :=
  match env.outcome x.1 with
  | .exc => none
  | .ok none _ => none
  | .ok (some d) _ =>
    if env.saveOk x.1 then some { code := x.1, uln := x.2, time := now, data := d }
    else none

/-- Embedding of `scrape_machine_status_batch` (lines 362-412).  The code
computes `request_time` once, after gathering the batch's responses
(lines 384-386); here that single clock reading is the parameter `now`.
`codes_to_parse` collects exactly the codes of the saved artifacts, and
`success_count` is their number. -/
def scrape_machine_status_batch (env : StatusEnv) (items : List (String × String))
    (now : ℕ) : BatchResult :=
  let arts := items.filterMap (statusStep env now)
  { artifacts := arts, parsed := arts.map (fun a => a.code), success := arts.length }

/-- Whether the status request for code `c` failed (captured exception, or
`data is None`: timeout, non-200, unparseable body). -/
def statusReqFailed (env : StatusEnv) (c : String) : Bool :=
  match env.outcome c with
  | .exc => true
  | .ok none _ => true
  | .ok (some _) _ => false

/-- Everything one polling cycle does (the `while True` body, lines
590-637): per-batch scraping with a fresh clock reading per batch, the
inter-batch sleeps (`max(0, status_batch_interval - elapsed)`, slept only
when positive and skipped after the final batch, lines 616-620), the
end-of-cycle sleep or overrun warning (lines 628-637), and the failure
cache, which no line of the loop reads, writes or flushes.  A sleep of 0
models the code skipping its `await asyncio.sleep`. -/
structure CycleResult where
  artifacts : List Artifact
  parsed : List String
  successTotal : ℕ
  requested : List String
  batchSleeps : List ℚ
  cycleSleep : ℚ
  overrunWarned : Bool
  failedAfter : Finset String
  failedFlushes : ℕ

/-- One polling cycle over the fixed `location_items` list: slices it with
`status_batch_size`, runs `scrape_machine_status_batch` on batch `i` with
the clock reading `clock i`, and performs the cooldown arithmetic of lines
615-637.  `elapsed i` is the measured duration of batch `i`, `cycleDur`
the measured cycle duration, `delay` the planned `status_batch_interval`
and `interval` the configured `interval_seconds`. -/
def runCycle (env : StatusEnv) (failed : Finset String)
    (items : List (String × String)) (size : ℕ) (clock : ℕ → ℕ) (delay : ℚ)
    (elapsed : ℕ → ℚ) (interval cycleDur : ℚ) : CycleResult :=
  let batches := batchesOf size items
  let nB := ceilDiv items.length size
  let results := batches.enum.map
    (fun p => scrape_machine_status_batch env p.2 (clock p.1))
  { artifacts := (results.map (fun r => r.artifacts)).flatten
    parsed := (results.map (fun r => r.parsed)).flatten
    successTotal := (results.map (fun r => r.success)).sum
    requested := (batches.map (fun b => b.map Prod.fst)).flatten
    batchSleeps := (List.range batches.length).filterMap
      (fun b => if b + 1 < nB then some (max 0 (delay - elapsed b)) else none)
    cycleSleep := if 0 < interval - cycleDur then interval - cycleDur else 0
    overrunWarned := !(decide (0 < interval - cycleDur))
    failedAfter := failed
    failedFlushes := 0 }

/-- The continuous polling phase: cycle `k` re-runs `runCycle` on the same
`location_items` list (computed once, line 586) with that cycle's
outcomes, clock readings and measured durations.  `save_failed_codes` is
called only in phase 1 (line 543), never here. -/
def phase2Run (env : ℕ → StatusEnv) (failed : Finset String)
    (items : List (String × String)) (size : ℕ) (clock : ℕ → ℕ → ℕ) (delay : ℚ)
    (elapsed : ℕ → ℕ → ℚ) (interval : ℚ) (cycleDur : ℕ → ℚ) (k : ℕ) : CycleResult :=
  runCycle (env k) failed items size (clock k) delay (elapsed k) interval (cycleDur k)

/-- An environment in which every status request succeeds and saves. -/
def statusEnvC2 : StatusEnv :=
  { outcome := fun _ => ReqResult.ok (some "p") 200
    saveOk := fun _ => true }

/-- An environment in which every status request gets HTTP 404. -/
def statusEnvFail : StatusEnv :=
  { outcome := fun _ => ReqResult.ok none 404
    saveOk := fun _ => true }

/-!
## Startup work-sets of `run_bulk_scraper` (lines 468-485) and
`get_existing_locations` (lines 415-429)
-/

/-- The on-disk state read at startup: `load_json` of the location artifact
`data_dir / code / f"{code}.json"` followed by the ULN lookup; `none`
models a missing or unreadable file and Python's falsy `if data:` check. -/
structure DiskEnv where
  locFile : String → Option LocPayload

/-- Embedding of `get_existing_locations` (lines 415-429): scans the codes
it is given — `run_bulk_scraper` passes the FULL `location_codes` list
(line 478), not the failure-filtered one — and keeps each code whose
artifact loads and yields a ULN. -/
def get_existing_locations (envD : DiskEnv) (codes : List String) :
    List (String × String) :=
  codes.filterMap (fun c =>
    match envD.locFile c with
    | none => none
    | some d =>
      match d.uln with
      | none => none
      | some u => some (c, u))

/-- `active_codes` (line 472): the input list with failure-cached codes
removed. -/
def active_codes (codes : List String) (failed : Finset String) : List String :=
  codes.filter (fun c => decide (c ∉ failed))

/-- `codes_needing_location` (lines 482-484): active codes without an
existing location entry. -/
def codes_needing_location (envD : DiskEnv) (codes : List String)
    (failed : Finset String) : List String :=
  (active_codes codes failed).filter
    (fun c => decide (c ∉ (get_existing_locations envD codes).map Prod.fst))

/-- Python `dict.update`: keys of `base` keep their position (with the
updated value when `upd` also has the key), new keys of `upd` follow. -/
def dictUpdate (base upd : List (String × String)) : List (String × String) :=
  base.map (fun p =>
    match upd.lookup p.1 with
    | some v => (p.1, v)
    | none => p) ++
  upd.filter (fun p => decide (p.1 ∉ base.map Prod.fst))

/-- The polling phase's work set: `existing_locations` after
`existing_locations.update(new_locations)` (line 549), where
`new_locations` comes from folding the resolution batches over
`codes_needing_location` (lines 515-530); `location_items` (line 586) is
exactly this association list. -/
def pollingItems (envD : DiskEnv) (envL : LocEnv) (szL : ℕ)
    (codes : List String) (failed : Finset String) : List (String × String) :=
  let existing := get_existing_locations envD codes
  let needing := codes_needing_location envD codes failed
  let p1 := phase1 envL (batchesOf szL needing) failed
  dictUpdate existing p1.1

/-- A trivial resolution environment (nothing resolves). -/
def locEnvNull : LocEnv :=
  { outcome := fun _ => ReqResult.exc
    artifact := fun _ => false
    saveOk := fun _ => false }

/-- A disk on which code "W1" has a durable location artifact with a ULN. -/
def diskEnvC3 : DiskEnv :=
  { locFile := fun c => if c = "W1" then some { uln := some "U1" } else none }

/-- An empty disk for the C3 witness. -/
def diskEnvW : DiskEnv := { locFile := fun _ => none }

/-!
## Theorems

Helper lemmas first where a claim's theorem needs them, then the
per-claim theorems with their witnesses and counterexamples.
-/

/-- C1: for every input with a positive interval (the only inputs on which
the Python expression `total_requests / interval_seconds` is defined and
meaningful), `calculate_batch_parameters` coincides with the spec's
reference definition of `BatchPlanner.plan`; being a Lean function of its
arguments, it is pure and deterministic. -/
theorem calculate_batch_parameters_eq_plan_spec
    (total : ℕ) (interval minB maxB : ℤ) (_hi : 0 < interval) :
    calculate_batch_parameters total interval minB maxB =
      plan_spec total interval minB maxB := rfl

/-- Witness for C1 at the spec's own scenario `plan(100, 900, 5, 50)`. -/
theorem calculate_batch_parameters_eq_plan_spec_witness :
    0 < (900 : ℤ) ∧
      calculate_batch_parameters 100 900 5 50 = plan_spec 100 900 5 50 :=
  ⟨by decide, calculate_batch_parameters_eq_plan_spec 100 900 5 50 (by decide)⟩

/-- C4 (counterexample): the claim quantifies over every choice of
`minBatch` and `maxBatch`; at `plan(1, 900, 5, 3)` (reachable by running
with `--max-concurrent 3`, since `min_batch_size` stays at its default 5)
the returned batch size is `5`, which does not lie in `[5, 3]`. -/
theorem batch_size_out_of_bounds_counterexample :
    (calculate_batch_parameters 1 900 5 3).1 = 5 ∧
      ¬ ((calculate_batch_parameters 1 900 5 3).1 ≤ 3) := by
  simp only [calculate_batch_parameters, num_batches, pyRound]
  norm_num

/-- C4 (amended): for all `totalItems ≥ 1`, positive interval and
`1 ≤ minBatch ≤ maxBatch` (every actual call site has `minBatch = 5`),
the returned batch size lies in `[minBatch, maxBatch]` and, with
`numBatches = ceil(totalItems / batchSize)`,
`numBatches * batchSize ≥ totalItems > (numBatches - 1) * batchSize`. -/
theorem batch_size_bounds_amended (total : ℕ) (interval minB maxB : ℤ)
    (ht : 1 ≤ total) (_hi : 0 < interval) (hmn : 1 ≤ minB) (hmx : minB ≤ maxB) :
    minB ≤ (calculate_batch_parameters total interval minB maxB).1 ∧
    (calculate_batch_parameters total interval minB maxB).1 ≤ maxB ∧
    (total : ℤ) ≤ num_batches total (calculate_batch_parameters total interval minB maxB).1 *
        (calculate_batch_parameters total interval minB maxB).1 ∧
    (num_batches total (calculate_batch_parameters total interval minB maxB).1 - 1) *
        (calculate_batch_parameters total interval minB maxB).1 < (total : ℤ) := by
  have h0 : ¬ (total = 0) := by omega
  have hb1 : (calculate_batch_parameters total interval minB maxB).1 =
      max minB (min (max 1 (pyRound ((total : ℚ) / (interval : ℚ)))) maxB) := by
    simp only [calculate_batch_parameters, if_neg h0]
  rw [hb1]
  set b : ℤ := max minB (min (max 1 (pyRound ((total : ℚ) / (interval : ℚ)))) maxB) with hbdef
  have hlo : minB ≤ b := le_max_left _ _
  have hhi : b ≤ maxB :=
    max_le hmx (min_le_right _ _)
  have hbpos : (0 : ℤ) < b := lt_of_lt_of_le (by omega) hlo
  have hbposQ : (0 : ℚ) < (b : ℚ) := by exact_mod_cast hbpos
  refine ⟨hlo, hhi, ?_, ?_⟩
  · have h1 : ((total : ℚ) / (b : ℚ)) ≤ ((num_batches total b : ℤ) : ℚ) := Int.le_ceil _
    have h2 : (total : ℚ) ≤ ((num_batches total b : ℤ) : ℚ) * (b : ℚ) :=
      (div_le_iff₀ hbposQ).mp h1
    exact_mod_cast h2
  · have h1 : ((num_batches total b : ℤ) : ℚ) < (total : ℚ) / (b : ℚ) + 1 :=
      Int.ceil_lt_add_one _
    have h2 : ((num_batches total b : ℤ) : ℚ) - 1 < (total : ℚ) / (b : ℚ) := by linarith
    have h3 : (((num_batches total b : ℤ) : ℚ) - 1) * (b : ℚ) < (total : ℚ) :=
      (lt_div_iff₀ hbposQ).mp h2
    exact_mod_cast h3

/-- Witness for C4 (amended) at the spec's scenario `plan(100, 900, 5, 50)`. -/
theorem batch_size_bounds_amended_witness :
    ((1 : ℕ) ≤ 100 ∧ (0 : ℤ) < 900 ∧ (1 : ℤ) ≤ 5 ∧ (5 : ℤ) ≤ 50) ∧
    ((5 : ℤ) ≤ (calculate_batch_parameters 100 900 5 50).1 ∧
      (calculate_batch_parameters 100 900 5 50).1 ≤ 50 ∧
      (100 : ℤ) ≤ num_batches 100 (calculate_batch_parameters 100 900 5 50).1 *
          (calculate_batch_parameters 100 900 5 50).1 ∧
      (num_batches 100 (calculate_batch_parameters 100 900 5 50).1 - 1) *
          (calculate_batch_parameters 100 900 5 50).1 < (100 : ℤ)) :=
  ⟨⟨by decide, by decide, by decide, by decide⟩,
    batch_size_bounds_amended 100 900 5 50 (by decide) (by decide) (by decide) (by decide)⟩

/-- A resolved entry produced by `locStep` is keyed by the code it was
produced for (the loop only ever inserts `location_to_uln[code] = uln`). -/
theorem locStep_key (env : LocEnv) (a : String) (q : String × String)
    (h : locStep env a = some q) : q.1 = a := by
  rcases henv : env.outcome a with _ | ⟨data, status⟩
  · simp [locStep, henv] at h
  · rcases data with _ | d
    · simp [locStep, henv] at h
    · rcases hu : d.uln with _ | u
      · simp [locStep, henv, hu] at h
      · by_cases h404 : status = 404
        · simp [locStep, henv, h404] at h
        · by_cases hs : env.saveOk a = true
          · simp [locStep, henv, hu, h404, hs] at h
            rw [← h]
          · simp [locStep, henv, hu, h404, hs] at h

/-- A transient outcome is not the 404 branch. -/
theorem loc404_eq_false_of_locTransient (env : LocEnv) (c : String)
    (h : locTransient env c = true) : loc404 env c = false := by
  rcases henv : env.outcome c with _ | ⟨data, status⟩
  · simp [loc404, henv]
  · rcases data with _ | d <;> simp [locTransient, henv] at h <;>
      simp [loc404, henv, h]

/-- A transient outcome resolves nothing. -/
theorem locStep_eq_none_of_locTransient (env : LocEnv) (c : String)
    (h : locTransient env c = true) : locStep env c = none := by
  rcases henv : env.outcome c with _ | ⟨data, status⟩
  · simp [locStep, henv]
  · rcases data with _ | d
    · simp [locStep, henv]
    · simp [locTransient, henv] at h
      simp [locStep, henv, h.2]

/-- C5: for a code actually requested by the resolution batch, an HTTP 404
outcome puts the code into the returned failure set, while every transient
outcome (captured exception, timeout, non-2xx other than 404, or a payload
missing the ULN) leaves the code out of the failure set and out of the
newly-resolved map, so it will be retried on a future pass. -/
theorem resolution_404_vs_transient (env : LocEnv) (codes : List String)
    (failed : Finset String) (c : String)
    (hc : c ∈ requestCodes env codes failed) :
    (loc404 env c = true → c ∈ (scrape_location_batch env codes failed).2) ∧
    (locTransient env c = true →
      c ∉ (scrape_location_batch env codes failed).2 ∧
        ∀ u, (c, u) ∉ (scrape_location_batch env codes failed).1) := by
  have hne : requestCodes env codes failed ≠ [] := List.ne_nil_of_mem hc
  have hnf : c ∉ failed := by
    have := List.of_mem_filter hc
    simp only [Bool.and_eq_true, decide_eq_true_eq] at this
    exact this.1
  unfold scrape_location_batch
  rw [if_neg hne]
  constructor
  · intro h404
    simp only [Finset.mem_union, List.mem_toFinset]
    right
    exact List.mem_filter.mpr ⟨hc, h404⟩
  · intro htr
    constructor
    · simp only [Finset.mem_union, List.mem_toFinset, List.mem_filter]
      rintro (hin | ⟨-, h404⟩)
      · exact hnf hin
      · rw [loc404_eq_false_of_locTransient env c htr] at h404
        cases h404
    · intro u hmem
      rcases List.mem_filterMap.mp hmem with ⟨a, -, ha⟩
      have hkey : c = a := locStep_key env a (c, u) ha
      subst hkey
      rw [locStep_eq_none_of_locTransient env c htr] at ha
      cases ha

/-- Witness for C5: code "A" of a one-code batch gets HTTP 404. -/
theorem resolution_404_vs_transient_witness :
    ("A" ∈ requestCodes locEnvW ["A"] (∅ : Finset String)) ∧
    ((loc404 locEnvW "A" = true →
        "A" ∈ (scrape_location_batch locEnvW ["A"] (∅ : Finset String)).2) ∧
      (locTransient locEnvW "A" = true →
        "A" ∉ (scrape_location_batch locEnvW ["A"] (∅ : Finset String)).2 ∧
          ∀ u, ("A", u) ∉ (scrape_location_batch locEnvW ["A"] (∅ : Finset String)).1)) :=
  ⟨by decide, resolution_404_vs_transient locEnvW ["A"] ∅ "A" (by decide)⟩

/-- C6: a resolution batch in which every code is already in the failure set
or already has a durable location artifact on disk issues zero requests
(`tasks` stays empty) and returns the empty map with the failure set
unchanged. -/
theorem resolution_idempotent (env : LocEnv) (codes : List String)
    (failed : Finset String)
    (h : ∀ c ∈ codes, c ∈ failed ∨ env.artifact c = true) :
    requestCodes env codes failed = [] ∧
      scrape_location_batch env codes failed = ([], failed) := by
  have hreq : requestCodes env codes failed = [] := by
    unfold requestCodes
    rw [List.filter_eq_nil_iff]
    intro c hc
    rcases h c hc with hin | hart
    · simp [hin]
    · simp [hart]
  refine ⟨hreq, ?_⟩
  unfold scrape_location_batch
  rw [hreq]
  rfl

/-- Witness for C6: "A" is cached as failed, "B" has an artifact. -/
theorem resolution_idempotent_witness :
    (∀ c ∈ ["A", "B"], c ∈ ({"A"} : Finset String) ∨ locEnvW6.artifact c = true) ∧
    (requestCodes locEnvW6 ["A", "B"] {"A"} = [] ∧
      scrape_location_batch locEnvW6 ["A", "B"] {"A"} = ([], {"A"})) :=
  ⟨by decide, resolution_idempotent locEnvW6 ["A", "B"] {"A"} (by decide)⟩

/-- Changing only code `x`'s outcome leaves every sibling's per-code
processing unchanged. -/
theorem locStep_override_ne (env : LocEnv) (x : String) (r : ReqResult LocPayload)
    (c : String) (h : c ≠ x) :
    locStep (overrideOutcome env x r) c = locStep env c := by
  unfold locStep overrideOutcome
  simp [h]

/-- Changing only code `x`'s outcome leaves every sibling's 404 test
unchanged. -/
theorem loc404_override_ne (env : LocEnv) (x : String) (r : ReqResult LocPayload)
    (c : String) (h : c ≠ x) :
    loc404 (overrideOutcome env x r) c = loc404 env c := by
  unfold loc404 overrideOutcome
  simp [h]

/-- The request set does not read outcomes, so overriding one changes
nothing. -/
theorem requestCodes_override (env : LocEnv) (x : String) (r : ReqResult LocPayload)
    (codes : List String) (failed : Finset String) :
    requestCodes (overrideOutcome env x r) codes failed =
      requestCodes env codes failed := rfl

/-- C7: replacing the outcome of one request `x` in a batch — by a captured
exception, a timeout, or anything else — does not change whether any other
code `c` of the batch ends up resolved (with any ULN) or in the failure
set: `asyncio.gather(..., return_exceptions=True)` collects all outcomes
and the result loop processes each code independently. -/
theorem batch_failure_isolation (env : LocEnv) (codes : List String)
    (failed : Finset String) (x : String) (r : ReqResult LocPayload)
    (c u : String) (hcx : c ≠ x) :
    ((c, u) ∈ (scrape_location_batch (overrideOutcome env x r) codes failed).1 ↔
      (c, u) ∈ (scrape_location_batch env codes failed).1) ∧
    (c ∈ (scrape_location_batch (overrideOutcome env x r) codes failed).2 ↔
      c ∈ (scrape_location_batch env codes failed).2) := by
  unfold scrape_location_batch
  rw [requestCodes_override]
  by_cases hnil : requestCodes env codes failed = []
  · simp [hnil]
  · rw [if_neg hnil, if_neg hnil]
    constructor
    · simp only [List.mem_filterMap]
      constructor
      · rintro ⟨a, ha, hstep⟩
        have hac : c = a := locStep_key _ a (c, u) hstep
        subst hac
        refine ⟨c, ha, ?_⟩
        rw [← locStep_override_ne env x r c hcx]
        exact hstep
      · rintro ⟨a, ha, hstep⟩
        have hac : c = a := locStep_key env a (c, u) hstep
        subst hac
        refine ⟨c, ha, ?_⟩
        rw [locStep_override_ne env x r c hcx]
        exact hstep
    · simp only [Finset.mem_union, List.mem_toFinset, List.mem_filter]
      rw [loc404_override_ne env x r c hcx]

/-- Witness for C7: code "X" of the batch ["A", "X"] is overridden to raise. -/
theorem batch_failure_isolation_witness :
    ("A" : String) ≠ "X" ∧
    ((("A", "U") ∈
        (scrape_location_batch (overrideOutcome locEnvW7 "X" ReqResult.exc)
          ["A", "X"] (∅ : Finset String)).1 ↔
      ("A", "U") ∈ (scrape_location_batch locEnvW7 ["A", "X"] (∅ : Finset String)).1) ∧
    ("A" ∈
        (scrape_location_batch (overrideOutcome locEnvW7 "X" ReqResult.exc)
          ["A", "X"] (∅ : Finset String)).2 ↔
      "A" ∈ (scrape_location_batch locEnvW7 ["A", "X"] (∅ : Finset String)).2)) :=
  ⟨by decide,
    batch_failure_isolation locEnvW7 ["A", "X"] ∅ "X" ReqResult.exc "A" "U" (by decide)⟩

/-- C9: the failure cache grows monotonically: each resolution batch returns
a superset of the failure set it was given (`failed_codes | new_failed_codes`),
and hence the set handed to `save_failed_codes` after phase 1 — the fold of
all location batches — is a superset of the set loaded at startup. -/
theorem failure_cache_monotone (env : LocEnv) :
    (∀ (codes : List String) (failed : Finset String),
      failed ⊆ (scrape_location_batch env codes failed).2) ∧
    (∀ (batches : List (List String)) (failed0 : Finset String),
      failed0 ⊆ (phase1 env batches failed0).2) := by
  have hstep : ∀ (codes : List String) (failed : Finset String),
      failed ⊆ (scrape_location_batch env codes failed).2 := by
    intro codes failed
    unfold scrape_location_batch
    by_cases h : requestCodes env codes failed = []
    · simp [h]
    · rw [if_neg h]
      exact Finset.subset_union_left
  refine ⟨hstep, ?_⟩
  have key : ∀ (bs : List (List String)) (acc : List (String × String) × Finset String),
      acc.2 ⊆
        (bs.foldl
          (fun acc b =>
            let r := scrape_location_batch env b acc.2
            (acc.1 ++ r.1, r.2))
          acc).2 := by
    intro bs
    induction bs with
    | nil => intro acc; exact subset_rfl
    | cons b bs ih =>
      intro acc
      rw [List.foldl_cons]
      refine subset_trans (hstep b acc.2) ?_
      exact ih (acc.1 ++ (scrape_location_batch env b acc.2).1,
        (scrape_location_batch env b acc.2).2)
  intro batches failed0
  exact key batches ([], failed0)

theorem batchesOfAux_flatten {α : Type} (size : ℕ) (hs : 1 ≤ size) :
    ∀ (fuel : ℕ) (l : List α), l.length ≤ fuel →
      (batchesOfAux size fuel l).flatten = l := by
  intro fuel
  induction fuel with
  | zero =>
    intro l hl
    have : l = [] := List.eq_nil_of_length_eq_zero (Nat.le_zero.mp hl)
    subst this
    rfl
  | succ fuel ih =>
    intro l hl
    cases l with
    | nil => rfl
    | cons a t =>
      simp only [batchesOfAux, List.flatten_cons]
      rw [ih ((a :: t).drop size) (by simp only [List.length_drop]; simp at hl ⊢; omega)]
      exact List.take_append_drop size (a :: t)

/-- The batch slices concatenate back to the whole work list: each phase
pass requests exactly its work-set, partitioned in order. -/
theorem batchesOf_flatten {α : Type} (size : ℕ) (hs : 1 ≤ size) (l : List α) :
    (batchesOf size l).flatten = l :=
  batchesOfAux_flatten size hs l.length l le_rfl

theorem ceilDiv_zero_left (b : ℕ) (hb : 1 ≤ b) : ceilDiv 0 b = 0 := by
  unfold ceilDiv
  exact Nat.div_eq_of_lt (by omega)

theorem ceilDiv_eq_pred_div_succ (n b : ℕ) (hb : 0 < b) (hn : 1 ≤ n) :
    ceilDiv n b = (n - 1) / b + 1 := by
  unfold ceilDiv
  have h : n + b - 1 = (n - 1) + b := by omega
  rw [h, Nat.add_div_right _ hb]

theorem ceilDiv_chunk (n b : ℕ) (hb : 0 < b) (hn : 1 ≤ n) :
    ceilDiv n b = 1 + ceilDiv (n - b) b := by
  rcases le_or_lt n b with hnb | hbn
  · have h1 : n - b = 0 := by omega
    rw [h1, ceilDiv_zero_left b hb, ceilDiv_eq_pred_div_succ n b hb hn,
      Nat.div_eq_of_lt (by omega)]
  · rw [ceilDiv_eq_pred_div_succ n b hb hn,
      ceilDiv_eq_pred_div_succ (n - b) b hb (by omega)]
    have h2 : n - 1 = (n - b - 1) + b := by omega
    rw [h2, Nat.add_div_right _ hb]
    omega

theorem batchesOfAux_length {α : Type} (size : ℕ) (hs : 1 ≤ size) :
    ∀ (fuel : ℕ) (l : List α), l.length ≤ fuel →
      (batchesOfAux size fuel l).length = ceilDiv l.length size := by
  intro fuel
  induction fuel with
  | zero =>
    intro l hl
    have : l = [] := List.eq_nil_of_length_eq_zero (Nat.le_zero.mp hl)
    subst this
    rw [show (batchesOfAux size 0 ([] : List α)) = [] from rfl]
    simp [ceilDiv_zero_left size hs]
  | succ fuel ih =>
    intro l hl
    cases l with
    | nil =>
      rw [show (batchesOfAux size (fuel + 1) ([] : List α)) = [] from rfl]
      simp [ceilDiv_zero_left size hs]
    | cons a t =>
      simp only [batchesOfAux, List.length_cons]
      rw [ih ((a :: t).drop size) (by simp only [List.length_drop]; simp at hl ⊢; omega)]
      simp only [List.length_drop, List.length_cons]
      rw [ceilDiv_chunk (t.length + 1) size hs (by omega)]
      omega

/-- The loop `for i in range(0, len(l), size)` runs
`ceil(len(l) / size)` times, the count the code stores as
`total_status_batches` (line 572). -/
theorem batchesOf_length {α : Type} (size : ℕ) (hs : 1 ≤ size) (l : List α) :
    (batchesOf size l).length = ceilDiv l.length size :=
  batchesOfAux_length size hs l.length l le_rfl

/-- Filtering `range n` by `b + 1 < k` keeps the first `min n (k - 1)`
indices: the shape of the "sleep except after the last batch" loop. -/
theorem range_if_filterMap {β : Type} (g : ℕ → β) (k : ℕ) :
    ∀ n : ℕ, (List.range n).filterMap
        (fun b => if b + 1 < k then some (g b) else none) =
      (List.range (min n (k - 1))).map g := by
  intro n
  induction n with
  | zero => simp
  | succ n ih =>
    rw [List.range_succ, List.filterMap_append, ih]
    by_cases h : n + 1 < k
    · have h1 : min n (k - 1) = n := Nat.min_eq_left (by omega)
      have h2 : min (n + 1) (k - 1) = n + 1 := Nat.min_eq_left (by omega)
      simp [h, h1, h2, List.range_succ]
    · have h1 : min (n + 1) (k - 1) = min n (k - 1) := by
        rw [Nat.min_eq_right (by omega), Nat.min_eq_right (by omega)]
      simp [h, h1]

/-- A saved status artifact is keyed by its item and stamped with the
batch's single clock reading, and exists only when the item's request
succeeded. -/
theorem statusStep_some (env : StatusEnv) (now : ℕ) (x : String × String)
    (a : Artifact) (h : statusStep env now x = some a) :
    a.code = x.1 ∧ a.time = now ∧ statusReqFailed env x.1 = false := by
  rcases henv : env.outcome x.1 with _ | ⟨data, s⟩
  · simp [statusStep, henv] at h
  · rcases data with _ | d
    · simp [statusStep, henv] at h
    · by_cases hs : env.saveOk x.1 = true
      · simp [statusStep, henv, hs] at h
        refine ⟨?_, ?_, ?_⟩
        · rw [← h]
        · rw [← h]
        · simp [statusReqFailed, henv]
      · simp [statusStep, henv, hs] at h

/-- C2 (amended): within one call of `scrape_machine_status_batch` a single
`request_time` is computed (once per batch, after the batch's responses are
gathered), and every artifact successfully saved by that call is stamped
with that same reading. -/
theorem status_timestamp_per_batch (env : StatusEnv)
    (items : List (String × String)) (now : ℕ) (a : Artifact)
    (ha : a ∈ (scrape_machine_status_batch env items now).artifacts) :
    a.time = now := by
  simp only [scrape_machine_status_batch] at ha
  rcases List.mem_filterMap.mp ha with ⟨x, -, hx⟩
  exact (statusStep_some env now x a hx).2.1

/-- Witness for C2 (amended): the one artifact of a one-item batch carries
the batch's clock reading 7. -/
theorem status_timestamp_per_batch_witness :
    ((⟨"A", "uA", 7, "p"⟩ : Artifact) ∈
        (scrape_machine_status_batch statusEnvC2 [("A", "uA")] 7).artifacts) ∧
      (⟨"A", "uA", 7, "p"⟩ : Artifact).time = 7 :=
  ⟨by decide,
    status_timestamp_per_batch statusEnvC2 [("A", "uA")] 7 ⟨"A", "uA", 7, "p"⟩ (by decide)⟩

/-- C2 (counterexample): `request_time` is computed inside
`scrape_machine_status_batch`, hence once per batch, not once per cycle
(lines 384-386 run on every call, and the cycle loop calls the function
once per batch at staggered times).  In a cycle of two one-item batches
whose clock readings differ (reading `i` at batch `i`), the two saved
artifacts of the same cycle carry different timestamps, falsifying the
claim that every artifact of a cycle is stamped with one cycle-wide
timestamp. -/
theorem status_timestamp_not_per_cycle :
    ¬ (∀ a ∈ (runCycle statusEnvC2 ∅ [("A", "uA"), ("B", "uB")] 1 (fun i => i) 0
          (fun _ => 0) 0 0).artifacts,
        ∀ b ∈ (runCycle statusEnvC2 ∅ [("A", "uA"), ("B", "uB")] 1 (fun i => i) 0
          (fun _ => 0) 0 0).artifacts,
        a.time = b.time) := by
  decide

/-- C8: in every polling cycle the inter-batch sleeps are exactly one per
batch gap — `max(0, plannedDelay - elapsedBatchTime)` for gaps `0` to
`numBatches - 2`, hence skipped after the final batch — all sleeps are
non-negative, the inter-cycle sleep equals
`max(0, intervalSeconds - cycleElapsed)`, and a cycle overrunning the
interval sleeps zero, logs the overrun warning and starts the next cycle
immediately. -/
theorem cooldown_sleeps (env : StatusEnv) (failed : Finset String)
    (items : List (String × String)) (size : ℕ) (clock : ℕ → ℕ) (delay : ℚ)
    (elapsed : ℕ → ℚ) (interval cycleDur : ℚ) (hs : 1 ≤ size) :
    (runCycle env failed items size clock delay elapsed interval cycleDur).batchSleeps =
      (List.range (ceilDiv items.length size - 1)).map
        (fun b => max 0 (delay - elapsed b)) ∧
    (∀ x ∈ (runCycle env failed items size clock delay
        elapsed interval cycleDur).batchSleeps, 0 ≤ x) ∧
    (runCycle env failed items size clock delay elapsed interval cycleDur).cycleSleep =
      max 0 (interval - cycleDur) ∧
    (interval < cycleDur →
      (runCycle env failed items size clock delay
          elapsed interval cycleDur).cycleSleep = 0 ∧
        (runCycle env failed items size clock delay
          elapsed interval cycleDur).overrunWarned = true) := by
  have h1 : (runCycle env failed items size clock delay
      elapsed interval cycleDur).batchSleeps =
      (List.range (ceilDiv items.length size - 1)).map
        (fun b => max 0 (delay - elapsed b)) := by
    simp only [runCycle]
    rw [batchesOf_length size hs items, range_if_filterMap]
    rw [Nat.min_eq_right (Nat.sub_le _ _)]
  have h3 : (runCycle env failed items size clock delay
      elapsed interval cycleDur).cycleSleep = max 0 (interval - cycleDur) := by
    simp only [runCycle]
    rcases le_or_lt (interval - cycleDur) 0 with hle | hlt
    · rw [if_neg (not_lt.mpr hle)]
      exact (max_eq_left hle).symm
    · rw [if_pos hlt]
      exact (max_eq_right (le_of_lt hlt)).symm
  refine ⟨h1, ?_, h3, ?_⟩
  · intro x hx
    rw [h1] at hx
    rcases List.mem_map.mp hx with ⟨b, -, rfl⟩
    exact le_max_left _ _
  · intro hover
    have hneg : interval - cycleDur ≤ 0 := by linarith
    constructor
    · rw [h3]
      exact max_eq_left hneg
    · simp only [runCycle]
      simp [not_lt.mpr hneg]

/-- Witness for C8: one batch of one item, planned delay 3, interval 10,
measured cycle duration 12 (an overrun). -/
theorem cooldown_sleeps_witness :
    (1 : ℕ) ≤ 1 ∧
    ((runCycle statusEnvC2 ∅ [("A", "uA")] 1 (fun i => i) 3 (fun _ => 1)
        10 12).batchSleeps =
      (List.range (ceilDiv (List.length [("A", "uA")]) 1 - 1)).map
        (fun b => max 0 (3 - (fun _ : ℕ => (1 : ℚ)) b)) ∧
    (∀ x ∈ (runCycle statusEnvC2 ∅ [("A", "uA")] 1 (fun i => i) 3 (fun _ => 1)
        10 12).batchSleeps, 0 ≤ x) ∧
    (runCycle statusEnvC2 ∅ [("A", "uA")] 1 (fun i => i) 3 (fun _ => 1)
        10 12).cycleSleep = max 0 (10 - 12) ∧
    ((10 : ℚ) < 12 →
      (runCycle statusEnvC2 ∅ [("A", "uA")] 1 (fun i => i) 3 (fun _ => 1)
          10 12).cycleSleep = 0 ∧
        (runCycle statusEnvC2 ∅ [("A", "uA")] 1 (fun i => i) 3 (fun _ => 1)
          10 12).overrunWarned = true)) :=
  ⟨le_rfl,
    cooldown_sleeps statusEnvC2 ∅ [("A", "uA")] 1 (fun i => i) 3 (fun _ => 1)
      10 12 le_rfl⟩

/-- A failed status request saves nothing. -/
theorem statusStep_none_of_failed (env : StatusEnv) (now : ℕ)
    (x : String × String) (h : statusReqFailed env x.1 = true) :
    statusStep env now x = none := by
  rcases henv : env.outcome x.1 with _ | ⟨data, s⟩
  · simp [statusStep, henv]
  · rcases data with _ | d
    · simp [statusStep, henv]
    · simp [statusReqFailed, henv] at h

/-- C10: during the continuous polling phase the failure cache is neither
modified nor re-flushed (cycle `k` returns it unchanged and performs zero
failure-store writes; `save_failed_codes` runs only in phase 1), a status
request that fails for a resolved entity — including an HTTP 404 — saves
no artifact and triggers no parse in that cycle, and the entity stays in
the fixed `location_items` work list, so every cycle `j` requests exactly
the same codes, retrying it forever. -/
theorem polling_preserves_failure_cache (env : ℕ → StatusEnv)
    (failed : Finset String) (items : List (String × String)) (size : ℕ)
    (clock : ℕ → ℕ → ℕ) (delay : ℚ) (elapsed : ℕ → ℕ → ℚ) (interval : ℚ)
    (cycleDur : ℕ → ℚ) (k : ℕ) (c : String)
    (hf : statusReqFailed (env k) c = true) :
    (phase2Run env failed items size clock delay elapsed interval
        cycleDur k).failedAfter = failed ∧
    (phase2Run env failed items size clock delay elapsed interval
        cycleDur k).failedFlushes = 0 ∧
    (∀ a ∈ (phase2Run env failed items size clock delay elapsed interval
        cycleDur k).artifacts, a.code ≠ c) ∧
    c ∉ (phase2Run env failed items size clock delay elapsed interval
        cycleDur k).parsed ∧
    (1 ≤ size → ∀ j : ℕ,
      (phase2Run env failed items size clock delay elapsed interval
        cycleDur j).requested = items.map Prod.fst) := by
  refine ⟨rfl, rfl, ?_, ?_, ?_⟩
  · intro a ha hac
    simp only [phase2Run, runCycle] at ha
    rcases List.mem_flatten.mp ha with ⟨l, hl, hal⟩
    rcases List.mem_map.mp hl with ⟨r, hr, rfl⟩
    rcases List.mem_map.mp hr with ⟨p, -, rfl⟩
    simp only [scrape_machine_status_batch] at hal
    rcases List.mem_filterMap.mp hal with ⟨x, -, hx⟩
    have h1 : a.code = x.1 := (statusStep_some _ _ _ _ hx).1
    have h2 : statusReqFailed (env k) x.1 = false := (statusStep_some _ _ _ _ hx).2.2
    rw [← h1, hac, hf] at h2
    cases h2
  · intro hc
    simp only [phase2Run, runCycle] at hc
    rcases List.mem_flatten.mp hc with ⟨l, hl, hcl⟩
    rcases List.mem_map.mp hl with ⟨r, hr, rfl⟩
    rcases List.mem_map.mp hr with ⟨p, -, rfl⟩
    simp only [scrape_machine_status_batch] at hcl
    rcases List.mem_map.mp hcl with ⟨a, hamem, hacode⟩
    rcases List.mem_filterMap.mp hamem with ⟨x, -, hx⟩
    have h1 : a.code = x.1 := (statusStep_some _ _ _ _ hx).1
    have h2 : statusReqFailed (env k) x.1 = false := (statusStep_some _ _ _ _ hx).2.2
    rw [← h1, hacode, hf] at h2
    cases h2
  · intro hs1 j
    simp only [phase2Run, runCycle]
    rw [← List.map_flatten, batchesOf_flatten size hs1 items]

/-- Witness for C10: one resolved entity whose status request 404s. -/
theorem polling_preserves_failure_cache_witness :
    statusReqFailed ((fun _ : ℕ => statusEnvFail) 0) "A" = true ∧
    ((phase2Run (fun _ => statusEnvFail) {"F"} [("A", "uA")] 1 (fun _ i => i) 0
        (fun _ _ => 0) 0 (fun _ => 0) 0).failedAfter = {"F"} ∧
    (phase2Run (fun _ => statusEnvFail) {"F"} [("A", "uA")] 1 (fun _ i => i) 0
        (fun _ _ => 0) 0 (fun _ => 0) 0).failedFlushes = 0 ∧
    (∀ a ∈ (phase2Run (fun _ => statusEnvFail) {"F"} [("A", "uA")] 1 (fun _ i => i) 0
        (fun _ _ => 0) 0 (fun _ => 0) 0).artifacts, a.code ≠ "A") ∧
    "A" ∉ (phase2Run (fun _ => statusEnvFail) {"F"} [("A", "uA")] 1 (fun _ i => i) 0
        (fun _ _ => 0) 0 (fun _ => 0) 0).parsed ∧
    (1 ≤ 1 → ∀ j : ℕ,
      (phase2Run (fun _ => statusEnvFail) {"F"} [("A", "uA")] 1 (fun _ i => i) 0
        (fun _ _ => 0) 0 (fun _ => 0) j).requested =
        [("A", "uA")].map Prod.fst)) :=
  ⟨by decide,
    polling_preserves_failure_cache (fun _ => statusEnvFail) {"F"} [("A", "uA")] 1
      (fun _ i => i) 0 (fun _ _ => 0) 0 (fun _ => 0) 0 "A" (by decide)⟩

/-- Every entry of a resolution batch's resolved map is keyed by a code of
the batch. -/
theorem scrape_location_batch_key_mem (env : LocEnv) (codes : List String)
    (failed : Finset String) (q : String × String)
    (h : q ∈ (scrape_location_batch env codes failed).1) : q.1 ∈ codes := by
  unfold scrape_location_batch at h
  by_cases hr : requestCodes env codes failed = []
  · rw [if_pos hr] at h
    cases h
  · rw [if_neg hr] at h
    rcases List.mem_filterMap.mp h with ⟨a, ha, hstep⟩
    rw [locStep_key env a q hstep]
    unfold requestCodes at ha
    exact List.mem_of_mem_filter ha

/-- Every entry resolved by phase 1 is keyed by a code of its batches. -/
theorem phase1_key_mem (env : LocEnv) (batches : List (List String))
    (failed0 : Finset String) (q : String × String)
    (h : q ∈ (phase1 env batches failed0).1) : q.1 ∈ batches.flatten := by
  have key : ∀ (bs : List (List String))
      (acc : List (String × String) × Finset String),
      q ∈ (bs.foldl
        (fun acc b =>
          let r := scrape_location_batch env b acc.2
          (acc.1 ++ r.1, r.2))
        acc).1 → q ∈ acc.1 ∨ q.1 ∈ bs.flatten := by
    intro bs
    induction bs with
    | nil => intro acc h; exact Or.inl h
    | cons b bs ih =>
      intro acc h
      rw [List.foldl_cons] at h
      rcases ih _ h with hacc | hbs
      · have hacc2 : q ∈ acc.1 ++ (scrape_location_batch env b acc.2).1 := hacc
        rcases List.mem_append.mp hacc2 with h1 | h2
        · exact Or.inl h1
        · right
          rw [List.flatten_cons]
          exact List.mem_append.mpr
            (Or.inl (scrape_location_batch_key_mem env b acc.2 q h2))
      · right
        rw [List.flatten_cons]
        exact List.mem_append.mpr (Or.inr hbs)
  rcases key batches ([], failed0) h with habs | hgood
  · cases habs
  · exact hgood

/-- Elements of the batch slices come from the sliced list (no size or
fuel hypothesis needed). -/
theorem batchesOfAux_flatten_subset {α : Type} (size : ℕ) :
    ∀ (fuel : ℕ) (l : List α) (x : α),
      x ∈ (batchesOfAux size fuel l).flatten → x ∈ l := by
  intro fuel
  induction fuel with
  | zero => intro l x h; cases h
  | succ fuel ih =>
    intro l x h
    cases l with
    | nil => cases h
    | cons a t =>
      simp only [batchesOfAux, List.flatten_cons] at h
      rcases List.mem_append.mp h with h1 | h2
      · exact List.mem_of_mem_take h1
      · exact List.mem_of_mem_drop (ih _ x h2)

/-- A key of `dictUpdate base upd` is a key of `base` or of `upd`. -/
theorem dictUpdate_key_mem (base upd : List (String × String)) (c : String)
    (h : c ∈ (dictUpdate base upd).map Prod.fst) :
    c ∈ base.map Prod.fst ∨ c ∈ upd.map Prod.fst := by
  unfold dictUpdate at h
  rw [List.map_append] at h
  rcases List.mem_append.mp h with h1 | h2
  · left
    have hkeys : (base.map (fun p =>
        match upd.lookup p.1 with
        | some v => (p.1, v)
        | none => p)).map Prod.fst = base.map Prod.fst := by
      rw [List.map_map]
      apply List.map_congr_left
      intro p hp
      rcases hl : upd.lookup p.1 with _ | v <;> simp [Function.comp, hl]
    rw [hkeys] at h1
    exact h1
  · right
    rcases List.mem_map.mp h2 with ⟨p, hp, hc⟩
    exact List.mem_map.mpr ⟨p, List.mem_of_mem_filter hp, hc⟩

/-- C3 (counterexample): a key loaded from the failure cache whose durable
location artifact exists on disk is NOT excluded from the polling work
set: `get_existing_locations` scans the full input list without consulting
`failed_codes` (line 478), so with `failed = {"W1"}` and an artifact for
"W1", `location_items` still contains "W1", violating
`WorkItem ∈ FailureSet ⇒ WorkItem ∉ ResolvedEntity domain`. -/
theorem failed_code_polled_counterexample :
    ¬ ("W1" ∈ ({"W1"} : Finset String) →
      "W1" ∉ (pollingItems diskEnvC3 locEnvNull 5 ["W1"] {"W1"}).map Prod.fst) := by
  decide

/-- C3 (amended): a key in the failure cache is excluded from the
resolution phase's request set — both from `codes_needing_location` and
from every batch's task list — and it is excluded from the polling work
set provided no durable location artifact for it yields a ULN; when such
an artifact exists, the key IS polled (see the counterexample), because
`get_existing_locations` is applied to the full input list. -/
theorem failure_cache_exclusion_amended (envD : DiskEnv) (envL : LocEnv)
    (szL : ℕ) (codes : List String) (failed : Finset String) (c : String)
    (hc : c ∈ failed) :
    c ∉ codes_needing_location envD codes failed ∧
    (∀ (batch : List String) (f : Finset String),
      c ∈ f → c ∉ requestCodes envL batch f) ∧
    (c ∉ (get_existing_locations envD codes).map Prod.fst →
      c ∉ (pollingItems envD envL szL codes failed).map Prod.fst) := by
  have hactive : c ∉ active_codes codes failed := by
    intro hmem
    have := List.of_mem_filter hmem
    simp only [decide_eq_true_eq] at this
    exact this hc
  refine ⟨?_, ?_, ?_⟩
  · intro hmem
    exact hactive (List.mem_of_mem_filter hmem)
  · intro batch f hcf hmem
    have := List.of_mem_filter hmem
    simp only [Bool.and_eq_true, decide_eq_true_eq] at this
    exact this.1 hcf
  · intro hnex hmem
    simp only [pollingItems] at hmem
    rcases dictUpdate_key_mem _ _ _ hmem with h1 | h2
    · exact hnex h1
    · rcases List.mem_map.mp h2 with ⟨q, hq, hq1⟩
      have hflat : q.1 ∈ (batchesOf szL (codes_needing_location envD codes failed)).flatten :=
        phase1_key_mem envL _ failed q hq
      have hneed : q.1 ∈ codes_needing_location envD codes failed :=
        batchesOfAux_flatten_subset szL _ _ q.1 hflat
      rw [hq1] at hneed
      exact hactive (List.mem_of_mem_filter hneed)

/-- Witness for C3 (amended): "W2" is failure-cached and has no artifact. -/
theorem failure_cache_exclusion_amended_witness :
    ("W2" ∈ ({"W2"} : Finset String)) ∧
    ("W2" ∉ codes_needing_location diskEnvW ["W2"] {"W2"} ∧
    (∀ (batch : List String) (f : Finset String),
      "W2" ∈ f → "W2" ∉ requestCodes locEnvNull batch f) ∧
    ("W2" ∉ (get_existing_locations diskEnvW ["W2"]).map Prod.fst →
      "W2" ∉ (pollingItems diskEnvW locEnvNull 5 ["W2"] {"W2"}).map Prod.fst)) :=
  ⟨by decide,
    failure_cache_exclusion_amended diskEnvW locEnvNull 5 ["W2"] {"W2"} "W2" (by decide)⟩
